import Mathlib

/-!
Verification development for the `footplayer_stats_predictor` repository.

The repository consists of a single React source file
(`player_pred_frontend/src/App.tsx`) and a README describing, in prose, the
backend prediction engine (which has no source code in the repository).

The App component's state and handlers are embedded shallowly:

* a JS object used as a string-keyed map (the `lineups.teamA` / `lineups.teamB`
  objects) is embedded as an insertion-ordered association list with unique
  keys; JS property update (`{ ...obj, [k]: v }` spread) is `upsert`, property
  read is `jsGet`, and `Object.values` is `List.map Prod.snd`;
* React state is a record `AppState`; each event handler is a function
  `AppState → ... → AppState`;
* the `fetch` call of `handlePredict` is given its outcome (`FetchOutcome`)
  as an argument, and the requests it issues are recorded in the
  `sentRequests` field of the state;
* the backend components described only in prose (the Statistic Blender)
  are modelled from the spec, and marked as such.
-/

set_option autoImplicit false

namespace FootPred

/-- Player record as the client consumes it: `App.tsx` reads exactly the
properties `name`, `team`, `pos` (the position attribute shown in the
position badge) and `age` of each record returned by `GET /players`. -/
structure Player where
  name : String
  team : String
  pos : String
  age : Nat
deriving DecidableEq

/-- Key of the `lineups` state object: `"teamA"` or `"teamB"`. -/
inductive TeamKey where
  | teamA
  | teamB
deriving DecidableEq

/-- The other side. -/
def otherTeam : TeamKey → TeamKey
  | TeamKey.teamA => TeamKey.teamB
  | TeamKey.teamB => TeamKey.teamA

/-- Value of the `activeSlot` state when non-null: `setActiveSlot(\x7b team: teamId, pos \x7d)`. -/
structure ActiveSlot where
  team : TeamKey
  pos : String
deriving DecidableEq

/-- A JS object holding one side's lineup: insertion-ordered association list
from position key to player, with pairwise-distinct keys (JS objects cannot
hold a key twice). -/
abbrev Lineup := List (String × Player)

/-- Property read `obj[k]` on a JS object embedded as an association list. -/
def jsGet (l : Lineup) (k : String) : Option Player :=
  (l.find? (fun e => e.1 == k)).map Prod.snd

/-- Property update `\x7b ...obj, [k]: v \x7d` on a JS object: if the key is present
its value is replaced in place (key order preserved), otherwise the new entry
is appended at the end. -/
def upsert (l : Lineup) (k : String) (v : Player) : Lineup :=
  if l.any (fun e => e.1 == k) then
    l.map (fun e => if e.1 = k then (k, v) else e)
  else
    l ++ [(k, v)]

/-- Keys of the JS object (`Object.keys`), in insertion order. -/
def keysOf (l : Lineup) : List String :=
  l.map Prod.fst

/-- Values of the JS object (`Object.values`), in insertion order. -/
def valuesOf (l : Lineup) : List Player :=
  l.map Prod.snd

/-- FORMATION_433 from App.tsx: the tactical positions with their pitch
coordinates (`top`, `left`), in the object's insertion order. -/
def FORMATION_433 : List (String × String × String) :=
  [("GK", "88%", "50%"), ("RB", "70%", "85%"), ("RCB", "75%", "62%"),
   ("LCB", "75%", "38%"), ("LB", "70%", "15%"), ("RCM", "50%", "72%"),
   ("CDM", "55%", "50%"), ("LCM", "50%", "28%"), ("RW", "25%", "80%"),
   ("ST", "18%", "50%"), ("LW", "25%", "20%")]

/-- FORMATION_ORDER from App.tsx. -/
def FORMATION_ORDER : List String :=
  ["GK", "RB", "RCB", "LCB", "LB", "RCM", "CDM", "LCM", "RW", "ST", "LW"]

/-- Object.keys(FORMATION_433) coincides with FORMATION_ORDER. -/
theorem formation_keys_eq : FORMATION_433.map Prod.fst = FORMATION_ORDER := rfl

/-- TEAM_A_DEFAULT from App.tsx. -/
def TEAM_A_DEFAULT : List String :=
  ["Alisson", "Virgil van Dijk", "Michael Carrick",
   "Damien Delaney", "Andrew Robertson", "Alexis Mac Allister",
   "Dominik Szoboszlai", "Ryan Gravenberch", "Mohamed Salah",
   "Luis Díaz", "Darwin Núñez"]

/-- TEAM_B_DEFAULT from App.tsx. -/
def TEAM_B_DEFAULT : List String :=
  ["Ederson", "Malo Gusto", "Manuel Akanji",
   "Kyle Walker", "Josko Gvardiol", "Rodri",
   "Kevin De Bruyne", "Bernardo Silva", "Phil Foden",
   "Jeremy Doku", "Erling Haaland"]

/-- Payload of a successful `POST /predict` response, per the response
contract (the client stores and displays it; it never computes with the
numbers, so they are carried as rationals). -/
structure PredictionPayload where
  team_a_expected_goals : Rat
  team_b_expected_goals : Rat
  win_probability : Rat
  draw_probability : Rat
  loss_probability : Rat
  team_a_strength : Rat
  team_b_strength : Rat
deriving DecidableEq

/-- Parsed JSON body of a `POST /predict` HTTP response: either the success
payload or a validation-error object (status code and message naming the
failing player or constraint). -/
inductive RespBody where
  | ok (p : PredictionPayload)
  | err (status : Nat) (message : String)
deriving DecidableEq

/-- Outcome of the `fetch` in `handlePredict`: either the promise rejects
(network-level failure, caught by the `catch` block) or an HTTP response
arrives and its body parses to `body`. -/
inductive FetchOutcome where
  | networkError
  | response (body : RespBody)
deriving DecidableEq

/-- Body of a `POST /predict` request issued by the client. -/
structure PredictRequest where
  team_a_players : List String
  team_b_players : List String
deriving DecidableEq

/-- The `lineups` state object of the App component. -/
structure Lineups where
  teamA : Lineup
  teamB : Lineup
deriving DecidableEq

/-- Read `lineups[k]`. -/
def getL (ls : Lineups) : TeamKey → Lineup
  | TeamKey.teamA => ls.teamA
  | TeamKey.teamB => ls.teamB

/-- The spread update `\x7b ...prev, [k]: v \x7d` on the `lineups` object. -/
def setL (ls : Lineups) : TeamKey → Lineup → Lineups
  | TeamKey.teamA, v => { ls with teamA := v }
  | TeamKey.teamB, v => { ls with teamB := v }

/-- The React state of the App component, plus two observation fields:
`sentRequests` records every `POST /predict` request issued so far, and
`lastAlert` records the most recent `alert(...)` message. -/
structure AppState where
  playersDb : List Player
  lineups : Lineups
  activeSlot : Option ActiveSlot
  searchTerm : String
  prediction : Option RespBody
  loading : Bool
  sentRequests : List PredictRequest
  lastAlert : Option String
deriving DecidableEq

/-- Names of one side's selected players, as `handlePredict` computes them:
`Object.values(lineups.team).map(p => p.name)`. -/
def teamNames (l : Lineup) : List String :=
  (valuesOf l).map Player.name

/-- selectPlayer from App.tsx: a no-op when `activeSlot` is null; otherwise
puts the chosen player at `lineups[activeSlot.team][activeSlot.pos]`, closes
the modal (`setActiveSlot(null)`) and clears the search (`setSearchTerm("")`). -/
def selectPlayer (s : AppState) (player : Player) : AppState :=
  match s.activeSlot with
  | none => s
  | some sl =>
      { s with
        lineups := setL s.lineups sl.team (upsert (getL s.lineups sl.team) sl.pos player),
        activeSlot := none,
        searchTerm := "" }

/-- handlePredict from App.tsx, with the fetch outcome passed in. It reads
both sides' player names; if either side has fewer than 11 it alerts and
returns without issuing a request; otherwise it issues exactly one
`POST /predict` request with body `team_a_players` / `team_b_players` and,
on an HTTP response, stores the parsed body via `setPrediction(result)`
(on promise rejection it alerts instead); `setLoading(false)` runs in the
`finally` block. -/
def handlePredict (s : AppState) (o : FetchOutcome) : AppState :=
  if (teamNames s.lineups.teamA).length < 11 ∨ (teamNames s.lineups.teamB).length < 11 then
    { s with lastAlert := some "Both teams must have 11 players selected!" }
  else
    match o with
    | FetchOutcome.networkError =>
        { s with
          sentRequests := s.sentRequests ++
            [{ team_a_players := teamNames s.lineups.teamA,
               team_b_players := teamNames s.lineups.teamB }],
          lastAlert := some "Failed to reach prediction engine.",
          loading := false }
    | FetchOutcome.response body =>
        { s with
          sentRequests := s.sentRequests ++
            [{ team_a_players := teamNames s.lineups.teamA,
               team_b_players := teamNames s.lineups.teamB }],
          prediction := some body,
          loading := false }

/-- ASCII model of `String.prototype.toLowerCase` on one character. -/
def charLower (c : Char) : Char :=
  if 'A' ≤ c ∧ c ≤ 'Z' then Char.ofNat (c.toNat + 32) else c

/-- Model of `String.prototype.toLowerCase`. -/
def jsToLower (s : String) : String :=
  ⟨s.data.map charLower⟩

/-- Does `hay` start with `sub`, character by character. -/
def chStartsWith : List Char → List Char → Bool
  | _, [] => true
  | [], _ :: _ => false
  | a :: as, b :: bs => a == b && chStartsWith as bs

/-- Substring containment on character lists. -/
def chIncludes : List Char → List Char → Bool
  | [], sub => chStartsWith [] sub
  | a :: t, sub => chStartsWith (a :: t) sub || chIncludes t sub

/-- Model of `String.prototype.includes`: does `hay` contain `sub`. -/
def strIncludes (hay sub : String) : Bool :=
  chIncludes hay.data sub.data

/-- The filter predicate of `filteredPlayers` in App.tsx. -/
def matchesSearch (q : String) (p : Player) : Bool :=
  strIncludes (jsToLower p.name) (jsToLower q) || strIncludes (jsToLower p.team) (jsToLower q)

/-- filteredPlayers from App.tsx. -/
def filteredPlayers (db : List Player) (q : String) : List Player :=
  db.filter (matchesSearch q)

/-- Characters matched by the regular expression `\s` (whitespace), as JS
defines it on the code points that occur in team names (ASCII whitespace,
no-break space, BOM). -/
def isJsWhitespace (c : Char) : Bool :=
  c == ' ' || c == '\t' || c == '\n' || c == '\r' ||
  c.toNat == 11 || c.toNat == 12 || c.toNat == 160 || c.toNat == 65279

/-- Global replacement of whitespace runs by a single dash, as the regex
replace of `\s+` (global) by `"-"` performs it; the boolean records whether
the previous character belonged to the current whitespace run. -/
def wsDashAux : Bool → List Char → List Char
  | _, [] => []
  | inRun, c :: rest =>
      if isJsWhitespace c then
        if inRun then wsDashAux true rest
        else '-' :: wsDashAux true rest
      else c :: wsDashAux false rest

/-- The file-name computation of getLogoUrl: lowercase, then replace each
maximal whitespace run by a single dash. -/
def logoFileName (t : String) : String :=
  ⟨wsDashAux false (jsToLower t).data⟩

/-- getLogoUrl from App.tsx; the argument is the `player.team` value, which
may be null/undefined (`none`) or empty (both falsy in JS). -/
def getLogoUrl (teamName : Option String) : String :=
  match teamName with
  | none => "/logos/default.png"
  | some t =>
      if t = "" then "/logos/default.png"
      else "/logos/" ++ logoFileName t ++ ".football-logos.cc.svg"

/-- Loop body of fillTeamWithDefaults: `FORMATION_ORDER.forEach((pos, index))`
walks the position list and the default-name list in parallel (an index past
the end of `defaultNames` reads `undefined`, which matches no player), looks
the name up in the database with `find` and, on a hit, stores the player
object under the position key of the fresh object being built. -/
def fillLoop (db : List Player) : List String → List String → Lineup → Lineup
  | [], _, acc => acc
  | _ :: posRest, [], acc => fillLoop db posRest [] acc
  | pos :: posRest, nm :: nmRest, acc =>
      match db.find? (fun p => p.name == nm) with
      | some pObj => fillLoop db posRest nmRest (upsert acc pos pObj)
      | none => fillLoop db posRest nmRest acc

/-- fillTeamWithDefaults from App.tsx: builds a fresh lineup object from the
defaults and replaces `lineups[teamKey]` with it wholesale. -/
def fillTeamWithDefaults (s : AppState) (teamKey : TeamKey) (defaultNames : List String) : AppState :=
  { s with lineups := setL s.lineups teamKey (fillLoop s.playersDb FORMATION_ORDER defaultNames []) }

/-- What the player-selection modal renders for one entry of
`filteredPlayers`: the name line, the team line, the position badge
(`player.pos`) and the age line (`Age: player.age`). -/
structure PlayerCard where
  nameLine : String
  teamLine : String
  badge : String
  ageLine : String
deriving DecidableEq

/-- Rendering of a single player entry in the modal. -/
def playerCard (p : Player) : PlayerCard :=
  { nameLine := p.name,
    teamLine := p.team,
    badge := p.pos,
    ageLine := "Age: " ++ toString p.age }

/-- The list of entries the modal renders, in order. -/
def modalCards (s : AppState) : List PlayerCard :=
  (filteredPlayers s.playersDb s.searchTerm).map playerCard

/-- User-interface events of the App component, with the data each handler
receives at its call site:
* `loadPlayers` — the `GET /players` effect resolves with a player list;
* `clickSlot` — a pitch slot is clicked; the `Pitch` component generates one
  click handler per key of `FORMATION_433`, so the position is an index into
  that key list;
* `closeModal` — the ✕ button (`setActiveSlot(null)`);
* `setSearch` — typing in the search input;
* `pickPlayer` — clicking the i-th entry of `filteredPlayers` in the modal;
* `fillTeam` — the Fill-Home/Fill-Away buttons (which pass `teamA`
  / TEAM_A_DEFAULT and `teamB` / TEAM_B_DEFAULT respectively);
* `predict` — the PREDICT-OUTCOME button, with the fetch outcome. -/
inductive Event where
  | loadPlayers (players : List Player)
  | clickSlot (team : TeamKey) (i : Fin 11)
  | closeModal
  | setSearch (q : String)
  | pickPlayer (i : Nat)
  | fillTeam (team : TeamKey) (names : List String)
  | predict (o : FetchOutcome)

/-- One step of the App component: dispatch an event to its handler. -/
def step (s : AppState) : Event → AppState
  | Event.loadPlayers ps => { s with playersDb := ps }
  | Event.clickSlot t i =>
      { s with activeSlot := some { team := t, pos := FORMATION_ORDER.get ⟨i.val, i.isLt⟩ } }
  | Event.closeModal => { s with activeSlot := none }
  | Event.setSearch q => { s with searchTerm := q }
  | Event.pickPlayer i =>
      match (filteredPlayers s.playersDb s.searchTerm).get? i with
      | some p => selectPlayer s p
      | none => s
  | Event.fillTeam t names => fillTeamWithDefaults s t names
  | Event.predict o => handlePredict s o

/-- Initial state of the component (`useState` initial values). -/
def initState : AppState :=
  { playersDb := [],
    lineups := { teamA := [], teamB := [] },
    activeSlot := none,
    searchTerm := "",
    prediction := none,
    loading := false,
    sentRequests := [],
    lastAlert := none }

/-- Run a sequence of events from the initial state. -/
def runEvents (es : List Event) : AppState :=
  es.foldl step initState

/-- Well-formedness of one side's lineup object: keys are pairwise distinct
(each slot holds at most one player) and every key is a formation role. -/
def lineupWF (l : Lineup) : Prop :=
  (keysOf l).Nodup ∧ ∀ k ∈ keysOf l, k ∈ FORMATION_ORDER

/-- The position stored in `activeSlot`, when the slot is set, is a
formation role. -/
def slotOK : Option ActiveSlot → Prop
  | none => True
  | some sl => sl.pos ∈ FORMATION_ORDER

/-- State invariant: both lineup objects are well-formed and any active slot
names a formation role. -/
def Inv (s : AppState) : Prop :=
  lineupWF s.lineups.teamA ∧ lineupWF s.lineups.teamB ∧ slotOK s.activeSlot

/-! Helper lemmas about the JS-object operations. -/

theorem jsGet_nil (k : String) : jsGet [] k = none := rfl

theorem jsGet_cons (x : String × Player) (l : Lineup) (k : String) :
    jsGet (x :: l) k = if x.1 = k then some x.2 else jsGet l k := by
  by_cases h : x.1 = k
  · rw [if_pos h]
    unfold jsGet
    rw [List.find?_cons_of_pos _ (by simpa using h)]
    rfl
  · rw [if_neg h]
    unfold jsGet
    rw [List.find?_cons_of_neg _ (by simpa using h)]

theorem jsGet_map_replace (l : Lineup) (k : String) (v : Player)
    (h : l.any (fun e => e.1 == k) = true) :
    jsGet (l.map (fun e => if e.1 = k then (k, v) else e)) k = some v := by
  induction l with
  | nil => simp at h
  | cons a t ih =>
      rw [List.map_cons, jsGet_cons]
      by_cases ha : a.1 = k
      · rw [if_pos ha, if_pos (by simp)]
      · rw [if_neg ha, if_neg (by simpa using ha)]
        apply ih
        simp only [List.any_cons, Bool.or_eq_true] at h
        exact h.resolve_left (by simpa using ha)

theorem jsGet_append_absent (l : Lineup) (k : String) (v : Player)
    (h : l.any (fun e => e.1 == k) = false) :
    jsGet (l ++ [(k, v)]) k = some v := by
  induction l with
  | nil =>
      rw [List.nil_append, jsGet_cons, if_pos rfl]
  | cons a t ih =>
      simp only [List.any_cons, Bool.or_eq_false_iff] at h
      rw [List.cons_append, jsGet_cons, if_neg (by simpa using h.1)]
      exact ih h.2

theorem jsGet_upsert_self (l : Lineup) (k : String) (v : Player) :
    jsGet (upsert l k v) k = some v := by
  unfold upsert
  by_cases h : l.any (fun e => e.1 == k) = true
  · rw [if_pos h]; exact jsGet_map_replace l k v h
  · rw [if_neg h]
    exact jsGet_append_absent l k v (Bool.eq_false_iff.mpr h)

theorem jsGet_map_replace_ne (l : Lineup) (k k' : String) (v : Player) (hne : k' ≠ k) :
    jsGet (l.map (fun e => if e.1 = k then (k, v) else e)) k' = jsGet l k' := by
  induction l with
  | nil => rfl
  | cons a t ih =>
      rw [List.map_cons, jsGet_cons, jsGet_cons]
      by_cases ha : a.1 = k
      · rw [if_pos ha]
        have h1 : (k, v).1 ≠ k' := fun hk => hne hk.symm
        have h2 : a.1 ≠ k' := by rw [ha]; exact fun hk => hne hk.symm
        rw [if_neg h1, if_neg h2]
        exact ih
      · rw [if_neg ha]
        by_cases ha' : a.1 = k'
        · rw [if_pos ha', if_pos ha']
        · rw [if_neg ha', if_neg ha']
          exact ih

theorem jsGet_append_single_ne (l : Lineup) (k k' : String) (v : Player) (hne : k' ≠ k) :
    jsGet (l ++ [(k, v)]) k' = jsGet l k' := by
  induction l with
  | nil =>
      rw [List.nil_append, jsGet_cons, if_neg (fun hk => hne hk.symm)]
  | cons a t ih =>
      rw [List.cons_append, jsGet_cons, jsGet_cons]
      by_cases ha : a.1 = k'
      · rw [if_pos ha, if_pos ha]
      · rw [if_neg ha, if_neg ha]
        exact ih

theorem jsGet_upsert_ne (l : Lineup) (k k' : String) (v : Player) (hne : k' ≠ k) :
    jsGet (upsert l k v) k' = jsGet l k' := by
  unfold upsert
  by_cases h : l.any (fun e => e.1 == k) = true
  · rw [if_pos h]
    exact jsGet_map_replace_ne l k k' v hne
  · rw [if_neg h]
    exact jsGet_append_single_ne l k k' v hne

theorem keysOf_upsert_present (l : Lineup) (k : String) (v : Player)
    (h : l.any (fun e => e.1 == k) = true) :
    keysOf (upsert l k v) = keysOf l := by
  unfold upsert
  rw [if_pos h]
  simp only [keysOf, List.map_map]
  refine List.map_congr_left ?_
  intro e _
  by_cases he : e.1 = k
  · simp [Function.comp, he]
  · simp [Function.comp, he]

theorem keysOf_upsert_absent (l : Lineup) (k : String) (v : Player)
    (h : l.any (fun e => e.1 == k) = false) :
    keysOf (upsert l k v) = keysOf l ++ [k] := by
  unfold upsert
  rw [if_neg (by rw [h]; exact Bool.false_ne_true)]
  simp [keysOf]

theorem not_mem_keys_of_any_false (l : Lineup) (k : String)
    (h : l.any (fun e => e.1 == k) = false) : k ∉ keysOf l := by
  intro hmem
  obtain ⟨e, he, hek⟩ := List.mem_map.mp hmem
  have htrue : l.any (fun e => e.1 == k) = true :=
    List.any_eq_true.mpr ⟨e, he, by simpa using hek⟩
  rw [htrue] at h
  cases h

theorem lineupWF_upsert (l : Lineup) (k : String) (v : Player)
    (hk : k ∈ FORMATION_ORDER) (h : lineupWF l) : lineupWF (upsert l k v) := by
  by_cases hany : l.any (fun e => e.1 == k) = true
  · rw [lineupWF, keysOf_upsert_present l k v hany]
    exact h
  · have hany' : l.any (fun e => e.1 == k) = false := Bool.eq_false_iff.mpr hany
    rw [lineupWF, keysOf_upsert_absent l k v hany']
    constructor
    · simp only [List.nodup_append, List.nodup_cons, List.nodup_nil]
      refine ⟨h.1, by simp, ?_⟩
      intro a ha hb
      simp only [List.mem_singleton] at hb
      subst hb
      exact not_mem_keys_of_any_false l a hany' ha
    · intro k' hk'
      rcases List.mem_append.mp hk' with hl | hr
      · exact h.2 k' hl
      · simp only [List.mem_singleton] at hr
        subst hr
        exact hk

theorem getL_setL_self (ls : Lineups) (t : TeamKey) (v : Lineup) :
    getL (setL ls t v) t = v := by
  cases t <;> rfl

theorem getL_setL_other (ls : Lineups) (t : TeamKey) (v : Lineup) :
    getL (setL ls t v) (otherTeam t) = getL ls (otherTeam t) := by
  cases t <;> rfl

theorem otherTeam_ne (t : TeamKey) : otherTeam t ≠ t := by
  cases t <;> simp [otherTeam]

/-! Helper lemmas about fillLoop. -/

theorem jsGet_fillLoop_not_mem (db : List Player) (posl nml : List String)
    (acc : Lineup) (k : String) (hk : k ∉ posl) :
    jsGet (fillLoop db posl nml acc) k = jsGet acc k := by
  induction posl generalizing nml acc with
  | nil => rfl
  | cons pos rest ih =>
      have hkp : k ≠ pos := by
        intro h; exact hk (h ▸ List.mem_cons_self pos rest)
      have hkr : k ∉ rest := fun h => hk (List.mem_cons_of_mem pos h)
      cases nml with
      | nil => exact ih [] acc hkr
      | cons nm nmRest =>
          cases hfind : db.find? (fun p => p.name == nm) with
          | none => simpa [fillLoop, hfind] using ih nmRest acc hkr
          | some pObj =>
              rw [fillLoop, hfind]
              rw [ih nmRest (upsert acc pos pObj) hkr]
              exact jsGet_upsert_ne acc pos k pObj hkp

theorem jsGet_fillLoop_pos (db : List Player) (posl nml : List String)
    (acc : Lineup) (i : Nat) (hi : i < posl.length)
    (hnd : posl.Nodup) (hacc : jsGet acc (posl.get ⟨i, hi⟩) = none) :
    jsGet (fillLoop db posl nml acc) (posl.get ⟨i, hi⟩) =
      (nml.get? i).bind (fun nm => db.find? (fun p => p.name == nm)) := by
  induction posl generalizing nml acc i with
  | nil => exact absurd hi (Nat.not_lt_zero i)
  | cons pos rest ih =>
      have hndr : rest.Nodup := (List.nodup_cons.mp hnd).2
      have hpos : pos ∉ rest := (List.nodup_cons.mp hnd).1
      cases i with
      | zero =>
          simp only [List.get] at hacc ⊢
          cases nml with
          | nil =>
              rw [fillLoop]
              rw [jsGet_fillLoop_not_mem db rest [] acc pos hpos]
              simpa using hacc
          | cons nm nmRest =>
              cases hfind : db.find? (fun p => p.name == nm) with
              | none =>
                  rw [fillLoop, hfind]
                  rw [jsGet_fillLoop_not_mem db rest nmRest acc pos hpos]
                  simpa [hfind] using hacc
              | some pObj =>
                  rw [fillLoop, hfind]
                  rw [jsGet_fillLoop_not_mem db rest nmRest (upsert acc pos pObj) pos hpos]
                  simpa [hfind] using jsGet_upsert_self acc pos pObj
      | succ j =>
          have hj : j < rest.length := Nat.lt_of_succ_lt_succ hi
          have hkey : (rest.get ⟨j, hj⟩) ≠ pos := by
            intro h
            exact hpos (h ▸ List.get_mem rest j hj)
          simp only [List.get] at hacc ⊢
          cases nml with
          | nil =>
              rw [fillLoop]
              rw [ih [] acc j hj hndr hacc]
              simp
          | cons nm nmRest =>
              cases hfind : db.find? (fun p => p.name == nm) with
              | none =>
                  rw [fillLoop, hfind]
                  rw [ih nmRest acc j hj hndr hacc]
                  simp
              | some pObj =>
                  rw [fillLoop, hfind]
                  have hacc' : jsGet (upsert acc pos pObj) (rest.get ⟨j, hj⟩) = none := by
                    rw [jsGet_upsert_ne acc pos _ pObj hkey]
                    exact hacc
                  rw [ih nmRest (upsert acc pos pObj) j hj hndr hacc']
                  simp

theorem lineupWF_fillLoop (db : List Player) (posl nml : List String)
    (acc : Lineup) (hpos : ∀ p ∈ posl, p ∈ FORMATION_ORDER) (hacc : lineupWF acc) :
    lineupWF (fillLoop db posl nml acc) := by
  induction posl generalizing nml acc with
  | nil => exact hacc
  | cons pos rest ih =>
      have hp : pos ∈ FORMATION_ORDER := hpos pos (List.mem_cons_self pos rest)
      have hrest : ∀ p ∈ rest, p ∈ FORMATION_ORDER :=
        fun p h => hpos p (List.mem_cons_of_mem pos h)
      cases nml with
      | nil => exact ih [] acc hrest hacc
      | cons nm nmRest =>
          cases hfind : db.find? (fun p => p.name == nm) with
          | none =>
              rw [fillLoop, hfind]
              exact ih nmRest acc hrest hacc
          | some pObj =>
              rw [fillLoop, hfind]
              exact ih nmRest (upsert acc pos pObj) hrest (lineupWF_upsert acc pos pObj hp hacc)

theorem lineupWF_nil : lineupWF [] := by
  constructor
  · exact List.nodup_nil
  · intro k hk
    simp [keysOf] at hk

/-- A well-formed lineup has at most 11 entries. -/
theorem lineupWF_length_le (l : Lineup) (h : lineupWF l) : l.length ≤ 11 := by
  have h1 : (keysOf l).length ≤ FORMATION_ORDER.length :=
    (List.subperm_of_subset h.1 (fun a ha => h.2 a ha)).length_le
  have h2 : (keysOf l).length = l.length := by simp [keysOf]
  have h3 : FORMATION_ORDER.length = 11 := rfl
  omega

/-! Invariant preservation. -/

theorem Inv_selectPlayer (s : AppState) (p : Player) (h : Inv s) :
    Inv (selectPlayer s p) := by
  rw [selectPlayer]
  cases has : s.activeSlot with
  | none => exact h
  | some sl =>
      have hk : sl.pos ∈ FORMATION_ORDER := by
        have h3 := h.2.2
        rw [has] at h3
        exact h3
      obtain ⟨t, pos⟩ := sl
      cases t
      · exact ⟨lineupWF_upsert _ _ _ hk h.1, h.2.1, trivial⟩
      · exact ⟨h.1, lineupWF_upsert _ _ _ hk h.2.1, trivial⟩

theorem Inv_fillTeam (s : AppState) (t : TeamKey) (names : List String) (h : Inv s) :
    Inv (fillTeamWithDefaults s t names) := by
  have hwf : lineupWF (fillLoop s.playersDb FORMATION_ORDER names []) :=
    lineupWF_fillLoop s.playersDb FORMATION_ORDER names [] (fun _ hp => hp) lineupWF_nil
  cases t
  · exact ⟨hwf, h.2.1, h.2.2⟩
  · exact ⟨h.1, hwf, h.2.2⟩

theorem Inv_handlePredict (s : AppState) (o : FetchOutcome) (h : Inv s) :
    Inv (handlePredict s o) := by
  unfold handlePredict
  by_cases hg : (teamNames s.lineups.teamA).length < 11 ∨ (teamNames s.lineups.teamB).length < 11
  · rw [if_pos hg]
    exact h
  · rw [if_neg hg]
    cases o with
    | networkError => exact h
    | response body => exact h

theorem Inv_step (s : AppState) (e : Event) (h : Inv s) : Inv (step s e) := by
  cases e with
  | loadPlayers ps => exact h
  | clickSlot t i =>
      exact ⟨h.1, h.2.1, List.get_mem FORMATION_ORDER i.val i.isLt⟩
  | closeModal => exact ⟨h.1, h.2.1, trivial⟩
  | setSearch q => exact h
  | pickPlayer i =>
      rw [step]
      cases hres : (filteredPlayers s.playersDb s.searchTerm).get? i with
      | none => exact h
      | some p => exact Inv_selectPlayer s p h
  | fillTeam t names => exact Inv_fillTeam s t names h
  | predict o => exact Inv_handlePredict s o h

theorem Inv_initState : Inv initState :=
  ⟨lineupWF_nil, lineupWF_nil, trivial⟩

theorem Inv_foldl (es : List Event) (s : AppState) (h : Inv s) :
    Inv (es.foldl step s) := by
  induction es generalizing s with
  | nil => exact h
  | cons e rest ih => exact ih (step s e) (Inv_step s e h)

theorem Inv_runEvents (es : List Event) : Inv (runEvents es) :=
  Inv_foldl es initState Inv_initState

/-! Helper lemmas for the search filter. -/

theorem strIncludes_empty (s : String) : strIncludes s "" = true := by
  obtain ⟨data⟩ := s
  cases data with
  | nil => rfl
  | cons a t => rfl

theorem jsToLower_empty : jsToLower "" = "" := rfl

/-! The Statistic Blender, modelled from the spec. -/

/-- Modelled from the spec: the Statistic Blender (§4.1) has no source in the
repository (the backend exists only as README prose), so it is taken from the
spec's words: `season_baseline` is the arithmetic mean over the player's full
observed series for the metric. -/
def seasonBaseline (series : List Rat) : Rat :=
  series.sum / (series.length : Rat)

/-- Modelled from the spec: `rolling_form` is the mean over the most recent
fixed-size window of the series; with fewer observations than the window it
falls back to the mean of all available observations. -/
def rollingForm (window : Nat) (series : List Rat) : Rat :=
  seasonBaseline (series.drop (series.length - window))

/-- Modelled from the spec: the blended per-metric value
`v = α·rolling_form + (1-α)·season_baseline`; with zero observations the
metric is reported as the sentinel unknown value (`none`). -/
def blendedMetric (alpha : Rat) (window : Nat) (series : List Rat) : Option Rat :=
  if series = [] then none
  else some (alpha * rollingForm window series + (1 - alpha) * seasonBaseline series)

/-- Observation series for the spec's worked example: a player whose season
xG average is 0.40 while the rolling-form mean over the last 5 matches
is 0.60. -/
def exampleSeriesA : List Rat :=
  [1/5, 1/5, 1/5, 1/5, 1/5, 3/5, 3/5, 3/5, 3/5, 3/5]

/-! Concrete sample data for witnesses and counterexamples. -/

/-- A sample player record, as the `GET /players` endpoint could return it. -/
def mkSamplePlayer (nm : String) : Player :=
  { name := nm, team := "Sample FC", pos := "MF", age := 25 }

/-- A sample database containing all 22 default names. -/
def sampleDb : List Player :=
  (TEAM_A_DEFAULT ++ TEAM_B_DEFAULT).map mkSamplePlayer

/-- A sample successful prediction payload. -/
def samplePayload : PredictionPayload :=
  { team_a_expected_goals := 3/2,
    team_b_expected_goals := 1,
    win_probability := 1/2,
    draw_probability := 3/10,
    loss_probability := 1/5,
    team_a_strength := 82,
    team_b_strength := 79 }

/-- State after loading the sample database. -/
def sLoaded : AppState :=
  { initState with playersDb := sampleDb }

/-- State after loading the sample database and filling both teams with
their defaults, via the two Fill buttons. -/
def sFull : AppState :=
  runEvents
    [Event.loadPlayers sampleDb,
     Event.fillTeam TeamKey.teamA TEAM_A_DEFAULT,
     Event.fillTeam TeamKey.teamB TEAM_B_DEFAULT]

/-- Event sequence that is possible in the UI and ends with a prediction
request in which "Alisson" occupies the goalkeeper slot of both sides:
load the players, fill both teams with their defaults, click the away
goalkeeper slot, pick the first listed player (Alisson), and predict. -/
def dupEvents : List Event :=
  [Event.loadPlayers sampleDb,
   Event.fillTeam TeamKey.teamA TEAM_A_DEFAULT,
   Event.fillTeam TeamKey.teamB TEAM_B_DEFAULT,
   Event.clickSlot TeamKey.teamB (0 : Fin 11),
   Event.pickPlayer 0,
   Event.predict (FetchOutcome.response (RespBody.ok samplePayload))]

/-- The request body issued at the end of `dupEvents`. -/
def dupRequest : PredictRequest :=
  { team_a_players := TEAM_A_DEFAULT,
    team_b_players :=
      ["Alisson", "Malo Gusto", "Manuel Akanji", "Kyle Walker", "Josko Gvardiol",
       "Rodri", "Kevin De Bruyne", "Bernardo Silva", "Phil Foden",
       "Jeremy Doku", "Erling Haaland"] }

/-- The request body issued from `sFull`. -/
def fullRequest : PredictRequest :=
  { team_a_players := TEAM_A_DEFAULT, team_b_players := TEAM_B_DEFAULT }

/-! Claim theorems. -/

/-- C1: when both sides have 11 selected players, handlePredict issues
exactly one POST /predict request whose body lists exactly the selected
home and away player names; when either side has fewer than 11, no request
is issued and the stored prediction is unchanged. -/
theorem claim1_predict_request (s : AppState) (o : FetchOutcome) :
    ((teamNames s.lineups.teamA).length = 11 → (teamNames s.lineups.teamB).length = 11 →
      (handlePredict s o).sentRequests
        = s.sentRequests ++ [{ team_a_players := teamNames s.lineups.teamA,
                               team_b_players := teamNames s.lineups.teamB }])
    ∧ ((teamNames s.lineups.teamA).length < 11 ∨ (teamNames s.lineups.teamB).length < 11 →
      (handlePredict s o).sentRequests = s.sentRequests
        ∧ (handlePredict s o).prediction = s.prediction) := by
  constructor
  · intro hA hB
    have hg : ¬((teamNames s.lineups.teamA).length < 11
        ∨ (teamNames s.lineups.teamB).length < 11) := by
      omega
    unfold handlePredict
    rw [if_neg hg]
    cases o with
    | networkError => rfl
    | response body => rfl
  · intro hg
    unfold handlePredict
    rw [if_pos hg]
    exact ⟨rfl, rfl⟩

/-- C1 witness: from the state with both defaults filled, the predict
operation appends exactly the request carrying the two default name lists. -/
theorem claim1_predict_request_witness :
    (handlePredict sFull (FetchOutcome.response (RespBody.ok samplePayload))).sentRequests
      = sFull.sentRequests ++ [{ team_a_players := teamNames sFull.lineups.teamA,
                                 team_b_players := teamNames sFull.lineups.teamB }] :=
  (claim1_predict_request sFull (FetchOutcome.response (RespBody.ok samplePayload))).1
    (by decide) (by decide)

/-- C2 counterexample: a UI-reachable event sequence (fill both defaults,
then put Alisson into the away goalkeeper slot as well) makes the client
issue a request in which the name "Alisson" occurs on both sides, so the 22
names of an issued request are not always pairwise distinct. -/
theorem claim2_counterexample :
    (runEvents dupEvents).sentRequests = [dupRequest]
    ∧ ¬ (dupRequest.team_a_players ++ dupRequest.team_b_players).Nodup := by
  constructor
  · decide
  · decide

/-- C2 amended: every request handlePredict issues carries exactly the names
of the players stored in the two lineup objects; the client does not enforce
distinctness, so the request's names are pairwise distinct exactly when the
stored names are. -/
theorem claim2_request_names (s : AppState) (o : FetchOutcome) (r : PredictRequest)
    (h : (handlePredict s o).sentRequests = s.sentRequests ++ [r]) :
    r.team_a_players = teamNames s.lineups.teamA
    ∧ r.team_b_players = teamNames s.lineups.teamB
    ∧ ((r.team_a_players ++ r.team_b_players).Nodup ↔
        (teamNames s.lineups.teamA ++ teamNames s.lineups.teamB).Nodup) := by
  by_cases hg : (teamNames s.lineups.teamA).length < 11
      ∨ (teamNames s.lineups.teamB).length < 11
  · exfalso
    unfold handlePredict at h
    rw [if_pos hg] at h
    have hlen := congrArg List.length h
    simp at hlen
  · unfold handlePredict at h
    rw [if_neg hg] at h
    have hr : ({ team_a_players := teamNames s.lineups.teamA,
                 team_b_players := teamNames s.lineups.teamB } : PredictRequest) = r := by
      cases o with
      | networkError =>
          simp only at h
          have := List.append_cancel_left h
          simpa using this
      | response body =>
          simp only at h
          have := List.append_cancel_left h
          simpa using this
    rw [← hr]
    exact ⟨rfl, rfl, Iff.rfl⟩

/-- C2 witness: the request issued from the default-filled state carries the
two default name lists, which are pairwise distinct. -/
theorem claim2_request_names_witness :
    fullRequest.team_a_players = teamNames sFull.lineups.teamA
    ∧ fullRequest.team_b_players = teamNames sFull.lineups.teamB
    ∧ ((fullRequest.team_a_players ++ fullRequest.team_b_players).Nodup ↔
        (teamNames sFull.lineups.teamA ++ teamNames sFull.lineups.teamB).Nodup) :=
  claim2_request_names sFull FetchOutcome.networkError fullRequest (by decide)

/-- C3 counterexample: when the POST /predict response body is a
validation-error object, the client stores that error object as the
prediction (it never inspects the body or the HTTP status), contradicting
the claim that an error object is never stored as a prediction result. -/
theorem claim3_counterexample :
    (handlePredict sFull
        (FetchOutcome.response (RespBody.err 400 "Unknown player: X"))).prediction
      = some (RespBody.err 400 "Unknown player: X")
    ∧ sFull.prediction = none := by
  constructor
  · decide
  · decide

/-- C3 amended: with full lineups, the client distinguishes only a
network-level fetch failure (alert shown, stored prediction unchanged); any
HTTP response body, successful or an error object, is stored as the
prediction without inspection. -/
theorem claim3_response_handling (s : AppState)
    (hg : ¬((teamNames s.lineups.teamA).length < 11
        ∨ (teamNames s.lineups.teamB).length < 11)) :
    ((handlePredict s FetchOutcome.networkError).prediction = s.prediction
      ∧ (handlePredict s FetchOutcome.networkError).lastAlert
          = some "Failed to reach prediction engine.")
    ∧ ∀ b : RespBody, (handlePredict s (FetchOutcome.response b)).prediction = some b := by
  constructor
  · constructor
    · unfold handlePredict
      rw [if_neg hg]
    · unfold handlePredict
      rw [if_neg hg]
  · intro b
    unfold handlePredict
    rw [if_neg hg]

/-- C3 witness: instantiation at the default-filled state. -/
theorem claim3_response_handling_witness :
    ((handlePredict sFull FetchOutcome.networkError).prediction = sFull.prediction
      ∧ (handlePredict sFull FetchOutcome.networkError).lastAlert
          = some "Failed to reach prediction engine.")
    ∧ ∀ b : RespBody, (handlePredict sFull (FetchOutcome.response b)).prediction = some b :=
  claim3_response_handling sFull (by decide)

/-- C4: the lineup invariant — every slot key belongs to the fixed 11-role
formation set, keys are pairwise distinct (each slot holds at most one
player), hence at most 11 players per side — holds initially, is preserved
by every event (in particular selectPlayer and fillTeamWithDefaults), and
holds in every reachable state. -/
theorem claim4_lineup_invariant :
    Inv initState
    ∧ (∀ (s : AppState) (e : Event), Inv s → Inv (step s e))
    ∧ (∀ es : List Event, Inv (runEvents es))
    ∧ (∀ l : Lineup, lineupWF l →
        (∀ k ∈ keysOf l, k ∈ FORMATION_ORDER) ∧ (keysOf l).Nodup ∧ l.length ≤ 11) :=
  ⟨Inv_initState,
   fun s e h => Inv_step s e h,
   Inv_runEvents,
   fun l hl => ⟨hl.2, hl.1, lineupWF_length_le l hl⟩⟩

/-- C4 witness: the preservation part applied at the initial state and a
concrete slot click. -/
theorem claim4_lineup_invariant_witness :
    Inv (step initState (Event.clickSlot TeamKey.teamA (0 : Fin 11))) :=
  claim4_lineup_invariant.2.1 initState (Event.clickSlot TeamKey.teamA (0 : Fin 11))
    claim4_lineup_invariant.1

/-- C5: the Statistic Blender (modelled from the spec, which is its only
description in the repository) returns `α·rolling_form + (1-α)·season_baseline`
for any α in [0,1] and any nonempty observation series; on the spec's worked
example (season xG 0.40, rolling-form xG 0.60, α = 0.5) the blended value
is 0.50. -/
theorem claim5_blender (alpha : Rat) (window : Nat) (series : List Rat)
    (_h0 : 0 ≤ alpha) (_h1 : alpha ≤ 1) (hne : series ≠ []) :
    blendedMetric alpha window series
      = some (alpha * rollingForm window series + (1 - alpha) * seasonBaseline series)
    ∧ seasonBaseline exampleSeriesA = 2/5
    ∧ rollingForm 5 exampleSeriesA = 3/5
    ∧ blendedMetric (1/2) 5 exampleSeriesA = some (1/2) := by
  refine ⟨?_, ?_, ?_, ?_⟩
  · rw [blendedMetric, if_neg hne]
  · norm_num [seasonBaseline, exampleSeriesA]
  · norm_num [rollingForm, seasonBaseline, exampleSeriesA]
  · rw [blendedMetric, if_neg (by simp [exampleSeriesA])]
    norm_num [rollingForm, seasonBaseline, exampleSeriesA]

/-- C5 witness: instantiation at the worked example itself. -/
theorem claim5_blender_witness :
    (blendedMetric (1/2) 5 exampleSeriesA
      = some ((1/2) * rollingForm 5 exampleSeriesA + (1 - 1/2) * seasonBaseline exampleSeriesA)
    ∧ seasonBaseline exampleSeriesA = 2/5
    ∧ rollingForm 5 exampleSeriesA = 3/5
    ∧ blendedMetric (1/2) 5 exampleSeriesA = some (1/2)) :=
  claim5_blender (1/2) 5 exampleSeriesA (by norm_num) (by norm_num) (by simp [exampleSeriesA])

/-- C6: every entry the player-selection modal renders comes from a player
record of the loaded list and displays that record's name, team, position
(the `pos` attribute, shown in the position badge) and age. -/
theorem claim6_player_card (s : AppState) (c : PlayerCard) (hc : c ∈ modalCards s) :
    ∃ p ∈ s.playersDb,
      c.nameLine = p.name ∧ c.teamLine = p.team ∧ c.badge = p.pos
        ∧ c.ageLine = "Age: " ++ toString p.age := by
  rw [modalCards] at hc
  obtain ⟨p, hp, hcard⟩ := List.mem_map.mp hc
  have hdb : p ∈ s.playersDb := (List.mem_filter.mp hp).1
  refine ⟨p, hdb, ?_⟩
  rw [← hcard]
  exact ⟨rfl, rfl, rfl, rfl⟩

/-- C6 witness: the card of the first sample player in the loaded state. -/
theorem claim6_player_card_witness :
    ∃ p ∈ sLoaded.playersDb,
      (playerCard (mkSamplePlayer "Alisson")).nameLine = p.name
      ∧ (playerCard (mkSamplePlayer "Alisson")).teamLine = p.team
      ∧ (playerCard (mkSamplePlayer "Alisson")).badge = p.pos
      ∧ (playerCard (mkSamplePlayer "Alisson")).ageLine = "Age: " ++ toString p.age :=
  claim6_player_card sLoaded (playerCard (mkSamplePlayer "Alisson")) (by decide)

/-- C7: the client-side filter keeps exactly the players whose lowercased
name or team contains the lowercased search term, preserves the relative
order of the loaded list (it is a sublist), and the empty search term keeps
the full list. -/
theorem claim7_filteredPlayers (db : List Player) (q : String) :
    List.Sublist (filteredPlayers db q) db
    ∧ (∀ p, p ∈ filteredPlayers db q ↔
        p ∈ db ∧ (strIncludes (jsToLower p.name) (jsToLower q) = true
          ∨ strIncludes (jsToLower p.team) (jsToLower q) = true))
    ∧ filteredPlayers db "" = db := by
  refine ⟨List.filter_sublist db, ?_, ?_⟩
  · intro p
    rw [filteredPlayers, List.mem_filter]
    constructor
    · intro ⟨hdb, hm⟩
      refine ⟨hdb, ?_⟩
      rw [matchesSearch, Bool.or_eq_true] at hm
      exact hm
    · intro ⟨hdb, hm⟩
      refine ⟨hdb, ?_⟩
      rw [matchesSearch, Bool.or_eq_true]
      exact hm
  · rw [filteredPlayers]
    apply List.filter_eq_self.mpr
    intro p _
    rw [matchesSearch, jsToLower_empty]
    rw [strIncludes_empty]
    rfl

/-- C8: with an active slot, selectPlayer stores the chosen player exactly
at that slot of that side, leaves every other slot of that side, the whole
other side and all remaining state fields unchanged, closes the modal and
clears the search term; with no active slot it changes nothing. -/
theorem claim8_selectPlayer_frame (s : AppState) (p : Player) :
    (s.activeSlot = none → selectPlayer s p = s)
    ∧ ∀ sl : ActiveSlot, s.activeSlot = some sl →
        jsGet (getL (selectPlayer s p).lineups sl.team) sl.pos = some p
        ∧ (∀ k : String, k ≠ sl.pos →
            jsGet (getL (selectPlayer s p).lineups sl.team) k = jsGet (getL s.lineups sl.team) k)
        ∧ getL (selectPlayer s p).lineups (otherTeam sl.team) = getL s.lineups (otherTeam sl.team)
        ∧ (selectPlayer s p).activeSlot = none
        ∧ (selectPlayer s p).searchTerm = ""
        ∧ (selectPlayer s p).playersDb = s.playersDb
        ∧ (selectPlayer s p).prediction = s.prediction
        ∧ (selectPlayer s p).loading = s.loading
        ∧ (selectPlayer s p).sentRequests = s.sentRequests
        ∧ (selectPlayer s p).lastAlert = s.lastAlert := by
  constructor
  · intro h
    rw [selectPlayer, h]
  · intro sl h
    have hsel : selectPlayer s p =
        { s with
            lineups := setL s.lineups sl.team (upsert (getL s.lineups sl.team) sl.pos p),
            activeSlot := none,
            searchTerm := "" } := by
      rw [selectPlayer, h]
    rw [hsel]
    refine ⟨?_, ?_, ?_, rfl, rfl, rfl, rfl, rfl, rfl, rfl⟩
    · rw [getL_setL_self]
      exact jsGet_upsert_self _ _ _
    · intro k hk
      rw [getL_setL_self]
      exact jsGet_upsert_ne _ _ _ _ hk
    · exact getL_setL_other _ _ _

/-- State with the sample database loaded and the home goalkeeper slot
active, used to witness the selectPlayer frame property. -/
def sModal : AppState :=
  { initState with
      playersDb := sampleDb,
      activeSlot := some { team := TeamKey.teamA, pos := "GK" } }

/-- C8 witness: selecting Alisson for the active home goalkeeper slot. -/
theorem claim8_selectPlayer_frame_witness :
    jsGet (getL (selectPlayer sModal (mkSamplePlayer "Alisson")).lineups TeamKey.teamA) "GK"
        = some (mkSamplePlayer "Alisson")
    ∧ (∀ k : String, k ≠ "GK" →
        jsGet (getL (selectPlayer sModal (mkSamplePlayer "Alisson")).lineups TeamKey.teamA) k
          = jsGet (getL sModal.lineups TeamKey.teamA) k)
    ∧ getL (selectPlayer sModal (mkSamplePlayer "Alisson")).lineups (otherTeam TeamKey.teamA)
        = getL sModal.lineups (otherTeam TeamKey.teamA)
    ∧ (selectPlayer sModal (mkSamplePlayer "Alisson")).activeSlot = none
    ∧ (selectPlayer sModal (mkSamplePlayer "Alisson")).searchTerm = ""
    ∧ (selectPlayer sModal (mkSamplePlayer "Alisson")).playersDb = sModal.playersDb
    ∧ (selectPlayer sModal (mkSamplePlayer "Alisson")).prediction = sModal.prediction
    ∧ (selectPlayer sModal (mkSamplePlayer "Alisson")).loading = sModal.loading
    ∧ (selectPlayer sModal (mkSamplePlayer "Alisson")).sentRequests = sModal.sentRequests
    ∧ (selectPlayer sModal (mkSamplePlayer "Alisson")).lastAlert = sModal.lastAlert :=
  (claim8_selectPlayer_frame sModal (mkSamplePlayer "Alisson")).2
    { team := TeamKey.teamA, pos := "GK" } rfl

/-- C9: fillTeamWithDefaults puts at slot FORMATION_ORDER[i] the first
database entry whose name equals defaultNames[i] (no matching entry, or no
i-th default name, leaves the slot unfilled), and leaves the other side's
lineup unchanged. -/
theorem claim9_fillTeamWithDefaults (s : AppState) (tk : TeamKey)
    (names : List String) (i : Nat) (hi : i < 11) :
    jsGet (getL (fillTeamWithDefaults s tk names).lineups tk) (FORMATION_ORDER.get ⟨i, hi⟩)
      = (names.get? i).bind (fun nm => s.playersDb.find? (fun p => p.name == nm))
    ∧ getL (fillTeamWithDefaults s tk names).lineups (otherTeam tk)
        = getL s.lineups (otherTeam tk) := by
  constructor
  · show jsGet (getL (setL s.lineups tk _) tk) _ = _
    rw [getL_setL_self]
    exact jsGet_fillLoop_pos s.playersDb FORMATION_ORDER names [] i hi (by decide) rfl
  · exact getL_setL_other _ _ _

/-- C9 witness: filling the home side from the loaded state puts the first
database entry named "Alisson" (the first default) at the "GK" slot. -/
theorem claim9_fillTeamWithDefaults_witness :
    jsGet (getL (fillTeamWithDefaults sLoaded TeamKey.teamA TEAM_A_DEFAULT).lineups TeamKey.teamA)
        (FORMATION_ORDER.get ⟨0, by decide⟩)
      = (TEAM_A_DEFAULT.get? 0).bind
          (fun nm => sLoaded.playersDb.find? (fun p => p.name == nm))
    ∧ getL (fillTeamWithDefaults sLoaded TeamKey.teamA TEAM_A_DEFAULT).lineups
          (otherTeam TeamKey.teamA)
        = getL sLoaded.lineups (otherTeam TeamKey.teamA) :=
  claim9_fillTeamWithDefaults sLoaded TeamKey.teamA TEAM_A_DEFAULT 0 (by decide)

/-- C10: getLogoUrl maps a null/undefined or empty team name to the default
logo path, and any other team name to "/logos/" followed by the name
lowercased with each maximal whitespace run replaced by a single dash,
followed by ".football-logos.cc.svg"; in particular "Manchester  City"
(with a two-space run) maps to "/logos/manchester-city.football-logos.cc.svg". -/
theorem claim10_getLogoUrl (t : String) (ht : t ≠ "") :
    getLogoUrl none = "/logos/default.png"
    ∧ getLogoUrl (some "") = "/logos/default.png"
    ∧ getLogoUrl (some t) = "/logos/" ++ logoFileName t ++ ".football-logos.cc.svg"
    ∧ getLogoUrl (some "Manchester  City") = "/logos/manchester-city.football-logos.cc.svg" := by
  refine ⟨rfl, rfl, ?_, ?_⟩
  · rw [getLogoUrl, if_neg ht]
  · decide

/-- C10 witness: instantiation at a concrete non-empty team name. -/
theorem claim10_getLogoUrl_witness :
    getLogoUrl none = "/logos/default.png"
    ∧ getLogoUrl (some "") = "/logos/default.png"
    ∧ getLogoUrl (some "Sample FC") = "/logos/" ++ logoFileName "Sample FC" ++ ".football-logos.cc.svg"
    ∧ getLogoUrl (some "Manchester  City") = "/logos/manchester-city.football-logos.cc.svg" :=
  claim10_getLogoUrl "Sample FC" (by decide)

end FootPred
